import Mathlib

/-!
Verification development for the git-cactus release CLI (src/index.js).

The file shallowly embeds the release-orchestration core: the semantic-version
planner (generateNextVersion, delegating to node-semver's inc/compare rules),
credential resolution (getCreds), the review gate (approveDiff) and the two
workflow drivers (cutReleaseBranch, tagVersion).  Effectful collaborators
(credential helper, nodegit, inquirer, npm) are modelled by explicit
environment records, and every externally visible action is recorded in an
event trace so that ordering and absence of actions can be stated.
-/

/-! ## Semantic versions (node-semver 5.x model)

A prerelease identifier is stored as a number when it is all digits (as
node-semver does on parse), otherwise as a string. -/

inductive PreId where
  | num (n : Nat)
  | str (s : String)
  deriving DecidableEq

structure SemVer where
  major : Nat
  minor : Nat
  patch : Nat
  prerelease : List PreId
  deriving DecidableEq

/-- Split a character list on every occurrence of a separator. -/
def splitOnChar (sep : Char) : List Char → List (List Char)
  | [] => [[]]
  | c :: cs =>
    match splitOnChar sep cs with
    | [] => if c = sep then [[], []] else [[c]]
    | g :: gs => if c = sep then [] :: g :: gs else (c :: g) :: gs

/-- Split a character list at the first occurrence of a separator, if any. -/
def splitFirst (sep : Char) : List Char → List Char × Option (List Char)
  | [] => ([], none)
  | c :: cs =>
    if c = sep then ([], some cs)
    else
      let p := splitFirst sep cs
      (c :: p.1, p.2)

/-- A valid numeric identifier: digits only, no leading zero (except "0"). -/
def validNumericIdent (cs : List Char) : Bool :=
  !cs.isEmpty && cs.all Char.isDigit && (cs == ['0'] || !(cs.head? == some '0'))

/-- Characters allowed in semver identifiers. -/
def validIdentChar (c : Char) : Bool := c.isAlpha || c.isDigit || c == '-'

/-- A valid alphanumeric identifier: nonempty, allowed characters, not all digits. -/
def validAlnumIdent (cs : List Char) : Bool :=
  !cs.isEmpty && cs.all validIdentChar && !cs.all Char.isDigit

def digitsToNat (cs : List Char) : Nat :=
  cs.foldl (fun a c => a * 10 + (c.toNat - 48)) 0

def parseNumComp (cs : List Char) : Option Nat :=
  if validNumericIdent cs then some (digitsToNat cs) else none

def parsePreId (cs : List Char) : Option PreId :=
  if validNumericIdent cs then some (PreId.num (digitsToNat cs))
  else if validAlnumIdent cs then some (PreId.str (String.mk cs))
  else none

/-- Parse a semantic version string, following node-semver's strict grammar:
an optional leading v, three dot-separated numeric components, an optional
dash-introduced prerelease (dot-separated identifiers) and an optional
plus-introduced build suffix (accepted, then discarded, as node-semver does
for ordering and for inc). -/
def parseSemVer (s : String) : Option SemVer :=
  let cs0 := s.data
  let cs := match cs0 with
    | 'v' :: rest => rest
    | _ => cs0
  let coreBuild := splitFirst '+' cs
  let mainPre := splitFirst '-' coreBuild.1
  let buildOk := match coreBuild.2 with
    | none => true
    | some b => (splitOnChar '.' b).all (fun g => !g.isEmpty && g.all validIdentChar)
  match splitOnChar '.' mainPre.1 with
  | [ma, mi, pa] =>
    match parseNumComp ma, parseNumComp mi, parseNumComp pa with
    | some major, some minor, some patch =>
      let pre : Option (List PreId) := match mainPre.2 with
        | none => some []
        | some p => (splitOnChar '.' p).mapM parsePreId
      match pre with
      | some pids =>
        if buildOk then some { major := major, minor := minor, patch := patch, prerelease := pids }
        else none
      | none => none
    | _, _, _ => none
  | _ => none

def renderPreId : PreId → String
  | PreId.num n => Nat.repr n
  | PreId.str s => s

def renderPreList : List PreId → String
  | [] => ""
  | [p] => renderPreId p
  | p :: ps => renderPreId p ++ "." ++ renderPreList ps

def renderSemVer (v : SemVer) : String :=
  Nat.repr v.major ++ "." ++ Nat.repr v.minor ++ "." ++ Nat.repr v.patch ++
    (match v.prerelease with
     | [] => ""
     | ps => "-" ++ renderPreList ps)

/-! ### Ordering (node-semver compare / comparePre / compareIdentifiers) -/

def natCompare (a b : Nat) : Ordering :=
  if a < b then Ordering.lt else if a = b then Ordering.eq else Ordering.gt

/-- Lexicographic code-point comparison of character lists (the JavaScript
string less-than used by compareIdentifiers); a strict prefix is smaller. -/
def charListLt : List Char → List Char → Bool
  | _, [] => false
  | [], _ :: _ => true
  | a :: as, b :: bs =>
    if a.toNat < b.toNat then true
    else if b.toNat < a.toNat then false
    else charListLt as bs

/-- compareIdentifiers: equal first, numeric identifiers sort before
alphanumeric ones, numbers numerically, strings lexicographically. -/
def strCompare (a b : String) : Ordering :=
  if a = b then Ordering.eq
  else if charListLt a.data b.data then Ordering.lt
  else Ordering.gt

def pidCompare : PreId → PreId → Ordering
  | PreId.num a, PreId.num b => natCompare a b
  | PreId.num _, PreId.str _ => Ordering.lt
  | PreId.str _, PreId.num _ => Ordering.gt
  | PreId.str a, PreId.str b => strCompare a b

/-- Elementwise comparison of two nonempty prerelease lists; running off the
end of one list makes the shorter one smaller. -/
def preListCompare : List PreId → List PreId → Ordering
  | [], [] => Ordering.eq
  | [], _ :: _ => Ordering.lt
  | _ :: _, [] => Ordering.gt
  | a :: as, b :: bs =>
    match pidCompare a b with
    | Ordering.eq => preListCompare as bs
    | o => o

/-- comparePre: a version with a prerelease sorts below the same version
without one. -/
def preCompare (a b : List PreId) : Ordering :=
  if a = [] then (if b = [] then Ordering.eq else Ordering.gt)
  else if b = [] then Ordering.lt
  else preListCompare a b

def semverCompare (a b : SemVer) : Ordering :=
  match natCompare a.major b.major with
  | Ordering.eq =>
    match natCompare a.minor b.minor with
    | Ordering.eq =>
      match natCompare a.patch b.patch with
      | Ordering.eq => preCompare a.prerelease b.prerelease
      | o => o
    | o => o
  | o => o

/-! ### Increment (node-semver 5.x SemVer.prototype.inc) -/

inductive ReleaseLevel where
  | major
  | minor
  | patch
  | premajor
  | preminor
  | prerelease
  deriving DecidableEq

def levelName : ReleaseLevel → String
  | ReleaseLevel.major => "major"
  | ReleaseLevel.minor => "minor"
  | ReleaseLevel.patch => "patch"
  | ReleaseLevel.premajor => "premajor"
  | ReleaseLevel.preminor => "preminor"
  | ReleaseLevel.prerelease => "prerelease"

/-- Increment the rightmost numeric prerelease identifier, if one exists. -/
def incRightmostNum : List PreId → Option (List PreId)
  | [] => none
  | PreId.num n :: xs =>
    match incRightmostNum xs with
    | some xs2 => some (PreId.num n :: xs2)
    | none => some (PreId.num (n + 1) :: xs)
  | PreId.str s :: xs =>
    match incRightmostNum xs with
    | some xs2 => some (PreId.str s :: xs2)
    | none => none

/-- The identifier-free part of the pre step: an empty prerelease becomes 0;
otherwise the rightmost numeric identifier is incremented, and if there is
none, 0 is appended. -/
def incPreStep (pre : List PreId) : List PreId :=
  if pre = [] then [PreId.num 0]
  else
    match incRightmostNum pre with
    | some p => p
    | none => pre ++ [PreId.num 0]

/-- An identifier supplied to inc, normalised the way a later reparse of the
formatted version would store it (all-digit identifiers become numbers). -/
def identToPreId (s : String) : PreId :=
  if validNumericIdent s.data then PreId.num (digitsToNat s.data) else PreId.str s

/-- The identifier clause of the pre step: keep the bumped prerelease when its
first identifier is the (string-)identical identifier and its second is
numeric, otherwise restart at identifier.0.  The strict-equality comparison in
the source never equates a numeric first identifier with the string argument. -/
def applyIdentifier (id : String) : List PreId → List PreId
  | PreId.str s :: PreId.num n :: rest =>
    if s = id then PreId.str s :: PreId.num n :: rest
    else [identToPreId id, PreId.num 0]
  | _ => [identToPreId id, PreId.num 0]

def incPre (preId : Option String) (pre : List PreId) : List PreId :=
  match preId with
  | none => incPreStep pre
  | some id => applyIdentifier id (incPreStep pre)

/-- node-semver inc for the six levels the CLI can request. -/
def semverInc (v : SemVer) (level : ReleaseLevel) (preId : Option String) : SemVer :=
  match level with
  | ReleaseLevel.premajor =>
    { major := v.major + 1, minor := 0, patch := 0, prerelease := incPre preId [] }
  | ReleaseLevel.preminor =>
    { major := v.major, minor := v.minor + 1, patch := 0, prerelease := incPre preId [] }
  | ReleaseLevel.prerelease =>
    if v.prerelease = [] then
      { major := v.major, minor := v.minor, patch := v.patch + 1, prerelease := incPre preId [] }
    else
      { major := v.major, minor := v.minor, patch := v.patch, prerelease := incPre preId v.prerelease }
  | ReleaseLevel.major =>
    if v.minor = 0 ∧ v.patch = 0 ∧ v.prerelease ≠ [] then
      { major := v.major, minor := 0, patch := 0, prerelease := [] }
    else
      { major := v.major + 1, minor := 0, patch := 0, prerelease := [] }
  | ReleaseLevel.minor =>
    if v.patch = 0 ∧ v.prerelease ≠ [] then
      { major := v.major, minor := v.minor, patch := 0, prerelease := [] }
    else
      { major := v.major, minor := v.minor + 1, patch := 0, prerelease := [] }
  | ReleaseLevel.patch =>
    if v.prerelease = [] then
      { major := v.major, minor := v.minor, patch := v.patch + 1, prerelease := [] }
    else
      { major := v.major, minor := v.minor, patch := v.patch, prerelease := [] }

/-- A preId argument on which the model is faithful to the source: either
absent, or a valid nonempty semver identifier.  (The source would feed an
invalid identifier into the version string and crash at the following
semver.major call.) -/
def validPreIdent (s : String) : Bool := validNumericIdent s.data || validAlnumIdent s.data

def validOptPreId : Option String → Bool
  | none => true
  | some s => validPreIdent s

/-! ## VersionPlanner: generateNextVersion (src/index.js lines 83-94) -/

structure VersionInfo where
  version : String
  minorVer : String
  releaseBranchName : String
  deriving DecidableEq

/-- The minorVer label of the incremented version: v{major}.{minor}. -/
def minorLabel (next : SemVer) : String :=
  "v" ++ Nat.repr next.major ++ "." ++ Nat.repr next.minor

/-- The release branch name: release-{minorVer}, with -{first prerelease
identifier} appended when the incremented version has a prerelease. -/
def releaseBranchNameOf (next : SemVer) : String :=
  match next.prerelease with
  | [] => "release-" ++ minorLabel next
  | p :: _ => "release-" ++ minorLabel next ++ "-" ++ renderPreId p

/-- generateNextVersion: none models the TypeError thrown by semver.major when
semver.inc returned null for an invalid current version. -/
def generateNextVersion (currentVersion : String) (level : ReleaseLevel)
    (preId : Option String) : Option VersionInfo :=
  match parseSemVer currentVersion with
  | none => none
  | some cur =>
    let next := semverInc cur level preId
    some { version := renderSemVer next
           minorVer := minorLabel next
           releaseBranchName := releaseBranchNameOf next }

/-! ## Credentials and remotes (src/index.js lines 39-71) -/

structure UserPass where
  username : String
  password : String
  deriving DecidableEq

inductive CredStrategy where
  | plaintextUserPass (username password : String)
  | sshAgent
  deriving DecidableEq

/-- The repository handle a git operation runs against: the caller's local
repository (opened from the current directory) or the scratch clone. -/
inductive RepoHandle where
  | localRepo
  | cloneRepo
  deriving DecidableEq

/-- The remote a push targets: the upstream remote of the local repository or
the origin remote of the scratch clone. -/
inductive RemoteHandle where
  | localUpstream
  | cloneOrigin
  deriving DecidableEq

/-- Externally visible actions of a workflow run, in order. -/
inductive Event where
  | gchAvailable (result : Bool)
  | gchFill (url : String)
  | tmpdirCreate
  | tmpdirRemove
  | cloneRepoCall (url : String)
  | revwalkRange (repo : RepoHandle) (range : String)
  | npmVersionRun (command : String)
  | pushCall (target : RemoteHandle) (refspecs : List String) (creds : CredStrategy)
  deriving DecidableEq

/-- JavaScript String.prototype.startsWith on the code points of the strings. -/
def jsStartsWith (s p : String) : Bool := p.data.isPrefixOf s.data

structure CredEnv where
  url : String
  helperAvailable : Bool
  helperCreds : UserPass
  deriving DecidableEq

/-- getCreds: the credential-helper availability lookup is awaited first, then
the url prefix decides the protocol; ssh-like (git-prefixed) urls yield null,
https-like urls fail without an available helper and otherwise fill
credentials from the helper. -/
def getCreds (env : CredEnv) : Except String (Option UserPass) × List Event :=
  let availEvents := [Event.gchAvailable env.helperAvailable]
  if jsStartsWith env.url "git" then (Except.ok none, availEvents)
  else if env.helperAvailable = false then
    (Except.error "Using https remote but git credentials helper not available!", availEvents)
  else (Except.ok (some env.helperCreds), availEvents ++ [Event.gchFill env.url])

/-- makeGitOpts: plaintext credentials when resolved, otherwise the ssh-agent
signer.  The certificate check is bypassed and no pushUpdateReference callback
is installed (only the credential dispatch matters to the claims). -/
def makeGitOpts (credentials : Option UserPass) : CredStrategy :=
  match credentials with
  | some c => CredStrategy.plaintextUserPass c.username c.password
  | none => CredStrategy.sshAgent

/-! ## DiffReviewer: approveDiff (src/index.js lines 96-122) -/

structure ReviewAnswer where
  lgtm : Bool
  deriving DecidableEq

/-- The inquirer confirm prompt: the explicit answer when one is typed, the
declared default when the user just presses enter.  The source declares the
default as false. -/
def inquirerConfirm (dflt : Bool) (input : Option Bool) : Bool :=
  match input with
  | some b => b
  | none => dflt

/-- approveDiff: builds the range string v{currentVersion}..{v{nextVersion} or
master}, walks that range on the repository handle it was given, prints the
log, and asks for confirmation with default false. -/
def approveDiff (repo : RepoHandle) (currentVersion : String) (nextVersion : Option String)
    (input : Option Bool) : ReviewAnswer × List Event :=
  let endRange := match nextVersion with
    | some nv => "v" ++ nv
    | none => "master"
  let range := "v" ++ currentVersion ++ ".." ++ endRange
  ({ lgtm := inquirerConfirm false input }, [Event.revwalkRange repo range])

/-! ## OrchestrationDriver: cutReleaseBranch (src/index.js lines 124-165) -/

/-- Environment of one cut run.  manifestVersion is the version recorded in
the scratch clone's package.json; answer is the operator's reply at the
prompt (none when only enter is pressed); rejectedRefs are the refspecs the
remote rejects per-ref, which the nodegit push call does not surface because
makeGitOpts installs no pushUpdateReference callback, so the call outcome
depends only on pushTransportOk. -/
structure CutEnv where
  upstreamUrl : String
  helperAvailable : Bool
  helperCreds : UserPass
  cloneOk : Bool
  manifestVersion : String
  level : ReleaseLevel
  preid : Option String
  answer : Option Bool
  pushTransportOk : Bool
  rejectedRefs : List String
  deriving DecidableEq

/-- cutReleaseBranch: resolve credentials on the upstream remote, create the
scratch directory and clone into it, plan the next version from the clone's
manifest, review the range v{current}..master walked on the caller's local
repository handle (the source passes repo, not clonedRepo), run npm version
inside the scratch clone, and on approval push master, the release branch and
the new tag to the clone's origin.  No path removes the scratch directory. -/
def cutReleaseBranch (env : CutEnv) : Except String String × List Event :=
  match getCreds { url := env.upstreamUrl, helperAvailable := env.helperAvailable,
                   helperCreds := env.helperCreds } with
  | (Except.error e, evs) => (Except.error e, evs)
  | (Except.ok credentials, evs0) =>
    let evs1 := evs0 ++ [Event.tmpdirCreate, Event.cloneRepoCall env.upstreamUrl]
    if env.cloneOk = false then (Except.error "clone failed", evs1)
    else
      match generateNextVersion env.manifestVersion env.level env.preid with
      | none => (Except.error "Invalid Version", evs1)
      | some versionInfo =>
        let reviewed := approveDiff RepoHandle.localRepo env.manifestVersion none env.answer
        let evs3 := evs1 ++ reviewed.2 ++
          [Event.npmVersionRun ("npm version " ++ levelName env.level ++ " -m \"Release v%s\"")]
        if reviewed.1.lgtm = false then
          (Except.ok "Aborted branch cut! Phew, that was a close one...", evs3)
        else
          let refspecs := ["refs/heads/master:refs/heads/master",
            "refs/heads/master:refs/heads/" ++ versionInfo.releaseBranchName,
            "refs/tags/v" ++ versionInfo.version ++ ":refs/tags/v" ++ versionInfo.version]
          let evs4 := evs3 ++ [Event.pushCall RemoteHandle.cloneOrigin refspecs (makeGitOpts credentials)]
          if env.pushTransportOk = false then (Except.error "push failed", evs4)
          else (Except.ok "Done!", evs4)

/-! ## OrchestrationDriver: tagVersion (src/index.js lines 167-196) -/

structure TagEnv where
  upstreamUrl : String
  helperAvailable : Bool
  helperCreds : UserPass
  manifestVersion : String
  answer : Option Bool
  pushTransportOk : Bool
  rejectedRefs : List String
  deriving DecidableEq

/-- tagVersion: resolve credentials, plan a patch bump from the local
manifest, run npm version patch in place before the gate, review the range
v{current}..v{next} on the local repository, and on approval push the release
branch and the new tag to the upstream remote. -/
def tagVersion (env : TagEnv) : Except String String × List Event :=
  match getCreds { url := env.upstreamUrl, helperAvailable := env.helperAvailable,
                   helperCreds := env.helperCreds } with
  | (Except.error e, evs) => (Except.error e, evs)
  | (Except.ok credentials, evs0) =>
    match generateNextVersion env.manifestVersion ReleaseLevel.patch none with
    | none => (Except.error "Invalid Version", evs0)
    | some versionInfo =>
      let evs1 := evs0 ++ [Event.npmVersionRun "npm version patch -m \"Release v%s\""]
      let reviewed := approveDiff RepoHandle.localRepo env.manifestVersion
        (some versionInfo.version) env.answer
      let evs3 := evs1 ++ reviewed.2
      if reviewed.1.lgtm = false then
        (Except.ok "Aborted push! Local changes not reverted, you must now do surgery!", evs3)
      else
        let refspecs := ["refs/heads/" ++ versionInfo.releaseBranchName ++ ":refs/heads/" ++
            versionInfo.releaseBranchName,
          "refs/tags/v" ++ versionInfo.version ++ ":refs/tags/v" ++ versionInfo.version]
        let evs4 := evs3 ++ [Event.pushCall RemoteHandle.localUpstream refspecs (makeGitOpts credentials)]
        if env.pushTransportOk = false then (Except.error "push failed", evs4)
        else (Except.ok "Done!", evs4)

/-- The pushes of a trace, as (remote, refspecs) pairs. -/
def pushPlans : List Event → List (RemoteHandle × List String)
  | [] => []
  | Event.pushCall t rs _ :: es => (t, rs) :: pushPlans es
  | _ :: es => pushPlans es

/-- Events a cut run can emit: in particular the scratch directory is never
removed, every history walk runs on the caller's local repository handle, and
every push targets the clone's origin. -/
def allowedCutEvent : Event → Bool
  | Event.tmpdirRemove => false
  | Event.revwalkRange RepoHandle.cloneRepo _ => false
  | Event.pushCall RemoteHandle.localUpstream _ _ => false
  | _ => true

def cutEnvC1 : CutEnv :=
  { upstreamUrl := "git@host:repo.git"
    helperAvailable := false
    helperCreds := { username := "u", password := "p" }
    cloneOk := true
    manifestVersion := "2.4.0"
    level := ReleaseLevel.minor
    preid := none
    answer := some true
    pushTransportOk := true
    rejectedRefs := [] }

def cutEnvC4 : CutEnv :=
  { upstreamUrl := "git@host:repo.git"
    helperAvailable := false
    helperCreds := { username := "u", password := "p" }
    cloneOk := true
    manifestVersion := "2.4.0"
    level := ReleaseLevel.minor
    preid := none
    answer := some true
    pushTransportOk := true
    rejectedRefs := ["refs/heads/master:refs/heads/release-v2.5"] }

def tagEnvC4 : TagEnv :=
  { upstreamUrl := "https://host/repo.git"
    helperAvailable := true
    helperCreds := { username := "u", password := "p" }
    manifestVersion := "2.5.0"
    answer := some true
    pushTransportOk := true
    rejectedRefs := ["refs/tags/v2.5.1:refs/tags/v2.5.1"] }

def credEnvC5 : CredEnv :=
  { url := "git@host:repo.git"
    helperAvailable := true
    helperCreds := { username := "u", password := "p" } }

def cutEnvC6 : CutEnv :=
  { upstreamUrl := "https://host/repo.git"
    helperAvailable := false
    helperCreds := { username := "u", password := "p" }
    cloneOk := true
    manifestVersion := "2.4.0"
    level := ReleaseLevel.minor
    preid := none
    answer := some true
    pushTransportOk := true
    rejectedRefs := [] }

def tagEnvC6 : TagEnv :=
  { upstreamUrl := "https://host/repo.git"
    helperAvailable := false
    helperCreds := { username := "u", password := "p" }
    manifestVersion := "2.5.0"
    answer := some true
    pushTransportOk := true
    rejectedRefs := [] }

def cutEnvC7 : CutEnv :=
  { upstreamUrl := "git@host:repo.git"
    helperAvailable := true
    helperCreds := { username := "u", password := "p" }
    cloneOk := true
    manifestVersion := "2.4.0"
    level := ReleaseLevel.minor
    preid := none
    answer := none
    pushTransportOk := true
    rejectedRefs := [] }

def tagEnvC7 : TagEnv :=
  { upstreamUrl := "https://host/repo.git"
    helperAvailable := true
    helperCreds := { username := "u", password := "p" }
    manifestVersion := "2.5.0"
    answer := some false
    pushTransportOk := true
    rejectedRefs := [] }

def credEnvC10 : CredEnv :=
  { url := "ssh://git@host/repo.git"
    helperAvailable := false
    helperCreds := { username := "u", password := "p" } }

/-! ## Ordering lemmas: incrementing without an identifier strictly grows -/

theorem natCompare_self (a : Nat) : natCompare a a = Ordering.eq := by
  simp [natCompare]

theorem natCompare_lt {a b : Nat} (h : a < b) : natCompare a b = Ordering.lt := by
  simp [natCompare, h]

theorem pidCompare_refl (p : PreId) : pidCompare p p = Ordering.eq := by
  cases p with
  | num n => simp [pidCompare, natCompare_self]
  | str s => simp [pidCompare, strCompare]

theorem preListCompare_append (pre : List PreId) (x : PreId) :
    preListCompare pre (pre ++ [x]) = Ordering.lt := by
  induction pre with
  | nil => simp [preListCompare]
  | cons a as ih => simp [preListCompare, pidCompare_refl, ih]

theorem incRightmostNum_ne_nil (pre p : List PreId) (h : incRightmostNum pre = some p) :
    p ≠ [] := by
  intro hnil
  subst hnil
  cases pre with
  | nil => simp [incRightmostNum] at h
  | cons a as =>
    cases a <;> simp only [incRightmostNum] at h <;> split at h <;> simp_all

theorem preListCompare_incRightmostNum :
    ∀ (pre p : List PreId), incRightmostNum pre = some p → preListCompare pre p = Ordering.lt := by
  intro pre
  induction pre with
  | nil => intro p h; simp [incRightmostNum] at h
  | cons a as ih =>
    intro p h
    cases a with
    | num n =>
      simp only [incRightmostNum] at h
      split at h
      case _ xs2 heq =>
        cases h
        simp [preListCompare, pidCompare_refl, ih xs2 heq]
      case _ heq =>
        cases h
        simp [preListCompare, pidCompare, natCompare_lt (Nat.lt_succ_self n)]
    | str s =>
      simp only [incRightmostNum] at h
      split at h
      case _ xs2 heq =>
        cases h
        simp [preListCompare, pidCompare_refl, ih xs2 heq]
      case _ heq => cases h

theorem preCompare_ne_nil (a : List PreId) (h : a ≠ []) : preCompare a [] = Ordering.lt := by
  simp [preCompare, h]

theorem preCompare_incPreStep (pre : List PreId) (h : pre ≠ []) :
    preCompare pre (incPreStep pre) = Ordering.lt := by
  rw [incPreStep, if_neg h]
  cases h2 : incRightmostNum pre with
  | some p =>
    have hp := incRightmostNum_ne_nil pre p h2
    simp [preCompare, h, hp, preListCompare_incRightmostNum pre p h2]
  | none =>
    simp [preCompare, h, preListCompare_append]

/-- Without a prerelease identifier argument, node-semver inc strictly
increases the version at every level. -/
theorem semverInc_gt (v : SemVer) (l : ReleaseLevel) :
    semverCompare v (semverInc v l none) = Ordering.lt := by
  cases l with
  | premajor =>
    simp [semverInc, semverCompare, natCompare_lt (Nat.lt_succ_self v.major)]
  | preminor =>
    simp [semverInc, semverCompare, natCompare_self,
      natCompare_lt (Nat.lt_succ_self v.minor)]
  | prerelease =>
    by_cases h : v.prerelease = []
    · simp [semverInc, h, semverCompare, natCompare_self,
        natCompare_lt (Nat.lt_succ_self v.patch)]
    · simp [semverInc, h, semverCompare, natCompare_self, incPre,
        preCompare_incPreStep v.prerelease h]
  | major =>
    by_cases h : v.minor = 0 ∧ v.patch = 0 ∧ v.prerelease ≠ []
    · obtain ⟨h1, h2, h3⟩ := h
      simp [semverInc, h1, h2, h3, semverCompare, natCompare_self,
        preCompare_ne_nil _ h3]
    · simp [semverInc, h, semverCompare,
        natCompare_lt (Nat.lt_succ_self v.major)]
  | minor =>
    by_cases h : v.patch = 0 ∧ v.prerelease ≠ []
    · obtain ⟨h1, h2⟩ := h
      simp [semverInc, h1, h2, semverCompare, natCompare_self,
        preCompare_ne_nil _ h2]
    · simp [semverInc, h, semverCompare, natCompare_self,
        natCompare_lt (Nat.lt_succ_self v.minor)]
  | patch =>
    by_cases h : v.prerelease = []
    · simp [semverInc, h, semverCompare, natCompare_self,
        natCompare_lt (Nat.lt_succ_self v.patch)]
    · simp [semverInc, h, semverCompare, natCompare_self,
        preCompare_ne_nil _ h]

/-! ## Shape lemmas for the planner and the two workflows -/

theorem generateNextVersion_eq (s : String) (v : SemVer) (l : ReleaseLevel)
    (pid : Option String) (hp : parseSemVer s = some v) :
    generateNextVersion s l pid =
      some { version := renderSemVer (semverInc v l pid)
             minorVer := minorLabel (semverInc v l pid)
             releaseBranchName := releaseBranchNameOf (semverInc v l pid) } := by
  simp [generateNextVersion, hp]

theorem getCreds_cases (c : CredEnv) :
    getCreds c = (Except.ok none, [Event.gchAvailable c.helperAvailable]) ∨
    getCreds c = (Except.error "Using https remote but git credentials helper not available!",
      [Event.gchAvailable c.helperAvailable]) ∨
    getCreds c = (Except.ok (some c.helperCreds),
      [Event.gchAvailable c.helperAvailable, Event.gchFill c.url]) := by
  by_cases h1 : jsStartsWith c.url "git" = true
  · left; simp [getCreds, h1]
  · by_cases h2 : c.helperAvailable = true
    · right; right; simp [getCreds, h1, h2]
    · right; left; simp [getCreds, h1, eq_false_of_ne_true h2]

theorem getCreds_ok_cases (c : CredEnv)
    (h : jsStartsWith c.url "git" = true ∨ c.helperAvailable = true) :
    getCreds c = (Except.ok none, [Event.gchAvailable c.helperAvailable]) ∨
    getCreds c = (Except.ok (some c.helperCreds),
      [Event.gchAvailable c.helperAvailable, Event.gchFill c.url]) := by
  by_cases h1 : jsStartsWith c.url "git" = true
  · left; simp [getCreds, h1]
  · right
    rcases h with h | h
    · exact absurd h h1
    · simp [getCreds, h1, h]

theorem cutReleaseBranch_rejected (env : CutEnv) (v : SemVer)
    (creds : Option UserPass) (evsg : List Event)
    (hg : getCreds ⟨env.upstreamUrl, env.helperAvailable, env.helperCreds⟩ =
      (Except.ok creds, evsg))
    (hclone : env.cloneOk = true)
    (hver : parseSemVer env.manifestVersion = some v)
    (hans : inquirerConfirm false env.answer = false) :
    cutReleaseBranch env =
      (Except.ok "Aborted branch cut! Phew, that was a close one...",
       evsg ++ [Event.tmpdirCreate, Event.cloneRepoCall env.upstreamUrl,
         Event.revwalkRange RepoHandle.localRepo ("v" ++ env.manifestVersion ++ ".." ++ "master"),
         Event.npmVersionRun ("npm version " ++ levelName env.level ++ " -m \"Release v%s\"")]) := by
  simp [cutReleaseBranch, hg, hclone,
    generateNextVersion_eq env.manifestVersion v env.level env.preid hver, approveDiff, hans]

theorem cutReleaseBranch_approved (env : CutEnv) (v : SemVer)
    (creds : Option UserPass) (evsg : List Event)
    (hg : getCreds ⟨env.upstreamUrl, env.helperAvailable, env.helperCreds⟩ =
      (Except.ok creds, evsg))
    (hclone : env.cloneOk = true)
    (hver : parseSemVer env.manifestVersion = some v)
    (hans : inquirerConfirm false env.answer = true)
    (hpush : env.pushTransportOk = true) :
    cutReleaseBranch env =
      (Except.ok "Done!",
       evsg ++ [Event.tmpdirCreate, Event.cloneRepoCall env.upstreamUrl,
         Event.revwalkRange RepoHandle.localRepo ("v" ++ env.manifestVersion ++ ".." ++ "master"),
         Event.npmVersionRun ("npm version " ++ levelName env.level ++ " -m \"Release v%s\""),
         Event.pushCall RemoteHandle.cloneOrigin
           ["refs/heads/master:refs/heads/master",
            "refs/heads/master:refs/heads/" ++ releaseBranchNameOf (semverInc v env.level env.preid),
            "refs/tags/v" ++ renderSemVer (semverInc v env.level env.preid) ++ ":refs/tags/v" ++
              renderSemVer (semverInc v env.level env.preid)]
           (makeGitOpts creds)]) := by
  simp [cutReleaseBranch, hg, hclone,
    generateNextVersion_eq env.manifestVersion v env.level env.preid hver, approveDiff, hans, hpush]

theorem tagVersion_rejected (env : TagEnv) (v : SemVer)
    (creds : Option UserPass) (evsg : List Event)
    (hg : getCreds ⟨env.upstreamUrl, env.helperAvailable, env.helperCreds⟩ =
      (Except.ok creds, evsg))
    (hver : parseSemVer env.manifestVersion = some v)
    (hans : inquirerConfirm false env.answer = false) :
    tagVersion env =
      (Except.ok "Aborted push! Local changes not reverted, you must now do surgery!",
       evsg ++ [Event.npmVersionRun "npm version patch -m \"Release v%s\"",
         Event.revwalkRange RepoHandle.localRepo
           ("v" ++ env.manifestVersion ++ ".." ++ ("v" ++ renderSemVer (semverInc v ReleaseLevel.patch none)))]) := by
  simp [tagVersion, hg,
    generateNextVersion_eq env.manifestVersion v ReleaseLevel.patch none hver, approveDiff, hans]

theorem tagVersion_approved (env : TagEnv) (v : SemVer)
    (creds : Option UserPass) (evsg : List Event)
    (hg : getCreds ⟨env.upstreamUrl, env.helperAvailable, env.helperCreds⟩ =
      (Except.ok creds, evsg))
    (hver : parseSemVer env.manifestVersion = some v)
    (hans : inquirerConfirm false env.answer = true)
    (hpush : env.pushTransportOk = true) :
    tagVersion env =
      (Except.ok "Done!",
       evsg ++ [Event.npmVersionRun "npm version patch -m \"Release v%s\"",
         Event.revwalkRange RepoHandle.localRepo
           ("v" ++ env.manifestVersion ++ ".." ++ ("v" ++ renderSemVer (semverInc v ReleaseLevel.patch none))),
         Event.pushCall RemoteHandle.localUpstream
           ["refs/heads/" ++ releaseBranchNameOf (semverInc v ReleaseLevel.patch none) ++ ":refs/heads/" ++
              releaseBranchNameOf (semverInc v ReleaseLevel.patch none),
            "refs/tags/v" ++ renderSemVer (semverInc v ReleaseLevel.patch none) ++ ":refs/tags/v" ++
              renderSemVer (semverInc v ReleaseLevel.patch none)]
           (makeGitOpts creds)]) := by
  simp [tagVersion, hg,
    generateNextVersion_eq env.manifestVersion v ReleaseLevel.patch none hver, approveDiff, hans, hpush]

theorem cutReleaseBranch_events (env : CutEnv) :
    ((cutReleaseBranch env).2.all allowedCutEvent) = true := by
  rcases getCreds_cases ⟨env.upstreamUrl, env.helperAvailable, env.helperCreds⟩ with hg | hg | hg <;>
    simp only [cutReleaseBranch, hg] <;>
    (repeat' split) <;>
    simp [allowedCutEvent, approveDiff, List.all_append]

theorem cut_first_event (env : CutEnv) :
    (cutReleaseBranch env).2.head? = some (Event.gchAvailable env.helperAvailable) := by
  rcases getCreds_cases ⟨env.upstreamUrl, env.helperAvailable, env.helperCreds⟩ with hg | hg | hg <;>
    simp only [cutReleaseBranch, hg] <;>
    (repeat' split) <;>
    simp [approveDiff]

theorem tag_first_event (env : TagEnv) :
    (tagVersion env).2.head? = some (Event.gchAvailable env.helperAvailable) := by
  rcases getCreds_cases ⟨env.upstreamUrl, env.helperAvailable, env.helperCreds⟩ with hg | hg | hg <;>
    simp only [tagVersion, hg] <;>
    (repeat' split) <;>
    simp [approveDiff]

/-! ## Claims -/

/-- Claim C1: in the cut workflow, when the review is approved, exactly one
push of exactly three refs goes to the clone's origin remote (mainline to
mainline, mainline to the new release branch, the new tag to itself); from
version 2.4.0 at level minor the branch is release-v2.5, the tag v2.5.0, and
the range presented for review is the string v2.4.0..master. -/
theorem cactus_cut_pushes_three_refs (env : CutEnv)
    (hv : env.manifestVersion = "2.4.0") (hl : env.level = ReleaseLevel.minor)
    (hpre : env.preid = none)
    (hcred : jsStartsWith env.upstreamUrl "git" = true ∨ env.helperAvailable = true)
    (hclone : env.cloneOk = true) (hans : env.answer = some true)
    (hpush : env.pushTransportOk = true) :
    (cutReleaseBranch env).1 = Except.ok "Done!" ∧
    pushPlans (cutReleaseBranch env).2 =
      [(RemoteHandle.cloneOrigin,
        ["refs/heads/master:refs/heads/master",
         "refs/heads/master:refs/heads/release-v2.5",
         "refs/tags/v2.5.0:refs/tags/v2.5.0"])] ∧
    Event.revwalkRange RepoHandle.localRepo "v2.4.0..master" ∈ (cutReleaseBranch env).2 := by
  have hverv : parseSemVer env.manifestVersion =
      some { major := 2, minor := 4, patch := 0, prerelease := [] } := by
    rw [hv]; decide
  have hbranch : "refs/heads/master:refs/heads/" ++ releaseBranchNameOf
      (semverInc { major := 2, minor := 4, patch := 0, prerelease := [] } ReleaseLevel.minor none) =
      "refs/heads/master:refs/heads/release-v2.5" := by decide
  have htag : "refs/tags/v" ++ renderSemVer
      (semverInc { major := 2, minor := 4, patch := 0, prerelease := [] } ReleaseLevel.minor none) ++
      ":refs/tags/v" ++ renderSemVer
      (semverInc { major := 2, minor := 4, patch := 0, prerelease := [] } ReleaseLevel.minor none) =
      "refs/tags/v2.5.0:refs/tags/v2.5.0" := by decide
  have hrange : "v" ++ env.manifestVersion ++ ".." ++ "master" = "v2.4.0..master" := by
    rw [hv]; decide
  rcases getCreds_ok_cases ⟨env.upstreamUrl, env.helperAvailable, env.helperCreds⟩ hcred with
    hg | hg <;>
  · rw [cutReleaseBranch_approved env _ _ _ hg hclone hverv (by rw [hans]; rfl) hpush]
    rw [hl, hpre]
    simp [pushPlans, hbranch, htag, hrange]

/-- Witness for C1 at a concrete environment. -/
theorem cactus_cut_pushes_three_refs_witness :
    (cutReleaseBranch cutEnvC1).1 = Except.ok "Done!" ∧
    pushPlans (cutReleaseBranch cutEnvC1).2 =
      [(RemoteHandle.cloneOrigin,
        ["refs/heads/master:refs/heads/master",
         "refs/heads/master:refs/heads/release-v2.5",
         "refs/tags/v2.5.0:refs/tags/v2.5.0"])] ∧
    Event.revwalkRange RepoHandle.localRepo "v2.4.0..master" ∈ (cutReleaseBranch cutEnvC1).2 :=
  cactus_cut_pushes_three_refs cutEnvC1 rfl rfl rfl (Or.inl (by decide)) rfl rfl rfl

/-- Claim C2: for every valid current version and level (and a preId on which
the model is faithful), the planner's minorVer is v{major}.{minor} of the
incremented version and the release branch name is release-{minorVer}, with
the first prerelease identifier appended exactly when the incremented version
has a prerelease; concretely plan 1.2.3 minor gives 1.3.0 / v1.3 /
release-v1.3, and plan 1.3.0 prerelease beta gives a prerelease version and a
branch name ending in -beta. -/
theorem cactus_plan_branch_naming :
    (∀ (s : String) (v : SemVer) (l : ReleaseLevel) (pid : Option String) (info : VersionInfo),
      parseSemVer s = some v → validOptPreId pid = true →
      generateNextVersion s l pid = some info →
      info.minorVer = "v" ++ Nat.repr (semverInc v l pid).major ++ "." ++
        Nat.repr (semverInc v l pid).minor ∧
      ((semverInc v l pid).prerelease = [] →
        info.releaseBranchName = "release-" ++ info.minorVer) ∧
      (∀ p ps, (semverInc v l pid).prerelease = p :: ps →
        info.releaseBranchName = "release-" ++ info.minorVer ++ "-" ++ renderPreId p)) ∧
    generateNextVersion "1.2.3" ReleaseLevel.minor none =
      some { version := "1.3.0", minorVer := "v1.3", releaseBranchName := "release-v1.3" } ∧
    generateNextVersion "1.3.0" ReleaseLevel.prerelease (some "beta") =
      some { version := "1.3.1-beta.0", minorVer := "v1.3",
             releaseBranchName := "release-v1.3" ++ "-beta" } ∧
    (semverInc { major := 1, minor := 3, patch := 0, prerelease := [] }
      ReleaseLevel.prerelease (some "beta")).prerelease ≠ [] := by
  refine ⟨?_, by decide, by decide, by decide⟩
  intro s v l pid info hp hval hgen
  rw [generateNextVersion_eq s v l pid hp] at hgen
  cases hgen
  refine ⟨rfl, ?_, ?_⟩
  · intro hpre
    simp [releaseBranchNameOf, minorLabel, hpre]
  · intro p ps hpre
    simp [releaseBranchNameOf, minorLabel, hpre]

/-- Witness for C2 at the concrete input 1.2.3 / minor. -/
theorem cactus_plan_branch_naming_witness :
    parseSemVer "1.2.3" = some { major := 1, minor := 2, patch := 3, prerelease := [] } ∧
    validOptPreId none = true ∧
    ({ version := "1.3.0", minorVer := "v1.3",
       releaseBranchName := "release-v1.3" } : VersionInfo).minorVer =
      "v" ++ Nat.repr (semverInc { major := 1, minor := 2, patch := 3, prerelease := [] }
        ReleaseLevel.minor none).major ++ "." ++
      Nat.repr (semverInc { major := 1, minor := 2, patch := 3, prerelease := [] }
        ReleaseLevel.minor none).minor :=
  ⟨by decide, by decide,
    (cactus_plan_branch_naming.1 "1.2.3" { major := 1, minor := 2, patch := 3, prerelease := [] }
      ReleaseLevel.minor none
      { version := "1.3.0", minorVer := "v1.3", releaseBranchName := "release-v1.3" }
      (by decide) (by decide) (by decide)).1⟩

/-- Claim C3 counterexample: at the valid pair (1.2.3-beta.1, prerelease) with
the prerelease identifier alpha, the planner's next version 1.2.3-alpha.0
compares strictly BELOW the current version, refuting that the next version is
always strictly greater. -/
theorem cactus_next_version_can_decrease :
    generateNextVersion "1.2.3-beta.1" ReleaseLevel.prerelease (some "alpha") =
      some { version := "1.2.3-alpha.0", minorVer := "v1.2",
             releaseBranchName := "release-v1.2-alpha" } ∧
    parseSemVer "1.2.3-beta.1" =
      some { major := 1, minor := 2, patch := 3, prerelease := [PreId.str "beta", PreId.num 1] } ∧
    parseSemVer "1.2.3-alpha.0" =
      some { major := 1, minor := 2, patch := 3, prerelease := [PreId.str "alpha", PreId.num 0] } ∧
    semverCompare
      { major := 1, minor := 2, patch := 3, prerelease := [PreId.str "alpha", PreId.num 0] }
      { major := 1, minor := 2, patch := 3, prerelease := [PreId.str "beta", PreId.num 1] } =
      Ordering.lt := by
  exact ⟨by decide, by decide, by decide, by decide⟩

/-- Claim C3 as amended: for every valid current version and every level, when
no prerelease identifier is supplied the planner's next version is strictly
greater than the current version under semantic-version ordering. -/
theorem cactus_next_version_greater_without_preid (s : String) (v : SemVer) (l : ReleaseLevel)
    (h : parseSemVer s = some v) :
    (generateNextVersion s l none).isSome = true ∧
    (∀ info, generateNextVersion s l none = some info →
      info.version = renderSemVer (semverInc v l none)) ∧
    semverCompare v (semverInc v l none) = Ordering.lt := by
  refine ⟨?_, ?_, semverInc_gt v l⟩
  · rw [generateNextVersion_eq s v l none h]; rfl
  · intro info hinfo
    rw [generateNextVersion_eq s v l none h] at hinfo
    cases hinfo
    rfl

/-- Witness for the amended C3 at the concrete input 1.2.3 / minor. -/
theorem cactus_next_version_greater_without_preid_witness :
    parseSemVer "1.2.3" = some { major := 1, minor := 2, patch := 3, prerelease := [] } ∧
    semverCompare { major := 1, minor := 2, patch := 3, prerelease := [] }
      (semverInc { major := 1, minor := 2, patch := 3, prerelease := [] }
        ReleaseLevel.minor none) = Ordering.lt :=
  ⟨by decide,
    (cactus_next_version_greater_without_preid "1.2.3"
      { major := 1, minor := 2, patch := 3, prerelease := [] } ReleaseLevel.minor
      (by decide)).2.2⟩

/-- Claim C4 counterexample: a cut run whose remote rejects one ref of the
three-ref plan still ends with the success message Done!, not a PushFailure
naming the rejected ref: the source submits the push as one call and never
verifies per-ref outcomes. -/
theorem cactus_push_rejection_reports_success :
    cutEnvC4.rejectedRefs = ["refs/heads/master:refs/heads/release-v2.5"] ∧
    pushPlans (cutReleaseBranch cutEnvC4).2 =
      [(RemoteHandle.cloneOrigin,
        ["refs/heads/master:refs/heads/master",
         "refs/heads/master:refs/heads/release-v2.5",
         "refs/tags/v2.5.0:refs/tags/v2.5.0"])] ∧
    (cutReleaseBranch cutEnvC4).1 = Except.ok "Done!" := by
  exact ⟨rfl, by decide, by rfl⟩

/-- Claim C4 as amended: the push is submitted as one request with no per-ref
verification: whenever the transport-level call succeeds, both workflows
report the success message independently of which refs the remote rejected,
so a rejected ref is never named in the outcome. -/
theorem cactus_push_success_not_verified (env : CutEnv) (envT : TagEnv)
    (hcred : jsStartsWith env.upstreamUrl "git" = true ∨ env.helperAvailable = true)
    (hclone : env.cloneOk = true)
    (hver : (parseSemVer env.manifestVersion).isSome = true)
    (hans : env.answer = some true) (hpush : env.pushTransportOk = true)
    (hcredT : jsStartsWith envT.upstreamUrl "git" = true ∨ envT.helperAvailable = true)
    (hverT : (parseSemVer envT.manifestVersion).isSome = true)
    (hansT : envT.answer = some true) (hpushT : envT.pushTransportOk = true) :
    (cutReleaseBranch env).1 = Except.ok "Done!" ∧
    (tagVersion envT).1 = Except.ok "Done!" := by
  obtain ⟨v, hv⟩ := Option.isSome_iff_exists.mp hver
  obtain ⟨w, hw⟩ := Option.isSome_iff_exists.mp hverT
  constructor
  · rcases getCreds_ok_cases ⟨env.upstreamUrl, env.helperAvailable, env.helperCreds⟩ hcred with
      hg | hg <;>
      rw [cutReleaseBranch_approved env v _ _ hg hclone hv (by rw [hans]; rfl) hpush]
  · rcases getCreds_ok_cases ⟨envT.upstreamUrl, envT.helperAvailable, envT.helperCreds⟩ hcredT with
      hg | hg <;>
      rw [tagVersion_approved envT w _ _ hg hw (by rw [hansT]; rfl) hpushT]

/-- Witness for the amended C4 at concrete environments with nonempty
rejected-ref sets. -/
theorem cactus_push_success_not_verified_witness :
    cutEnvC4.rejectedRefs ≠ [] ∧ tagEnvC4.rejectedRefs ≠ [] ∧
    (cutReleaseBranch cutEnvC4).1 = Except.ok "Done!" ∧
    (tagVersion tagEnvC4).1 = Except.ok "Done!" := by
  have h := cactus_push_success_not_verified cutEnvC4 tagEnvC4
    (Or.inl (by decide)) rfl (by decide) rfl rfl (Or.inr rfl) (by decide) rfl rfl
  exact ⟨by decide, by decide, h.1, h.2⟩

/-- Claim C5 counterexample: for the ssh-like URL git@host:repo.git the
resolver does return None and never fetches credentials, but the credential
helper IS consulted: its availability lookup is awaited (and recorded) before
the protocol check, so resolution does not happen without invoking the helper
collaborator at all. -/
theorem cactus_ssh_resolution_queries_helper :
    getCreds credEnvC5 = (Except.ok none, [Event.gchAvailable true]) ∧
    Event.gchAvailable true ∈ (getCreds credEnvC5).2 := by
  exact ⟨by rfl, by decide⟩

/-- Claim C5 as amended: for every ssh-like (git-prefixed) remote URL the
resolver returns None and never fetches credentials from the helper (no fill
call), but it first awaits the helper availability query, whose result it
ignores for such URLs. -/
theorem cactus_ssh_returns_none_without_fill (c : CredEnv)
    (h : jsStartsWith c.url "git" = true) :
    getCreds c = (Except.ok none, [Event.gchAvailable c.helperAvailable]) ∧
    (∀ u, Event.gchFill u ∉ (getCreds c).2) := by
  have hg : getCreds c = (Except.ok none, [Event.gchAvailable c.helperAvailable]) := by
    simp [getCreds, h]
  refine ⟨hg, ?_⟩
  intro u
  rw [hg]
  simp

/-- Witness for the amended C5 at the concrete ssh-like URL. -/
theorem cactus_ssh_returns_none_without_fill_witness :
    getCreds credEnvC5 = (Except.ok none, [Event.gchAvailable true]) ∧
    Event.gchFill "git@host:repo.git" ∉ (getCreds credEnvC5).2 :=
  ⟨(cactus_ssh_returns_none_without_fill credEnvC5 (by decide)).1,
   (cactus_ssh_returns_none_without_fill credEnvC5 (by decide)).2 "git@host:repo.git"⟩

/-- Claim C6: for an https-like remote URL whose credential helper is
unavailable, both workflows fail with the helper-unavailable error and no
clone or push is ever attempted; moreover in every run of either workflow the
credential-resolution query is the first recorded action, so resolution
always completes before any clone or push. -/
theorem cactus_helper_unavailable_blocks (env : CutEnv) (envT : TagEnv)
    (h : jsStartsWith env.upstreamUrl "git" = false) (ha : env.helperAvailable = false)
    (hT : jsStartsWith envT.upstreamUrl "git" = false) (haT : envT.helperAvailable = false) :
    (cutReleaseBranch env).1 =
      Except.error "Using https remote but git credentials helper not available!" ∧
    (∀ u, Event.cloneRepoCall u ∉ (cutReleaseBranch env).2) ∧
    pushPlans (cutReleaseBranch env).2 = [] ∧
    (tagVersion envT).1 =
      Except.error "Using https remote but git credentials helper not available!" ∧
    pushPlans (tagVersion envT).2 = [] ∧
    (∀ env2 : CutEnv, (cutReleaseBranch env2).2.head? =
      some (Event.gchAvailable env2.helperAvailable)) ∧
    (∀ envT2 : TagEnv, (tagVersion envT2).2.head? =
      some (Event.gchAvailable envT2.helperAvailable)) := by
  have hgc : getCreds ⟨env.upstreamUrl, env.helperAvailable, env.helperCreds⟩ =
      (Except.error "Using https remote but git credentials helper not available!",
       [Event.gchAvailable env.helperAvailable]) := by
    simp [getCreds, h, ha]
  have hgt : getCreds ⟨envT.upstreamUrl, envT.helperAvailable, envT.helperCreds⟩ =
      (Except.error "Using https remote but git credentials helper not available!",
       [Event.gchAvailable envT.helperAvailable]) := by
    simp [getCreds, hT, haT]
  have hcut : cutReleaseBranch env =
      (Except.error "Using https remote but git credentials helper not available!",
       [Event.gchAvailable env.helperAvailable]) := by
    simp [cutReleaseBranch, hgc]
  have htag : tagVersion envT =
      (Except.error "Using https remote but git credentials helper not available!",
       [Event.gchAvailable envT.helperAvailable]) := by
    simp [tagVersion, hgt]
  refine ⟨by rw [hcut], ?_, by rw [hcut]; rfl, by rw [htag], by rw [htag]; rfl,
    cut_first_event, tag_first_event⟩
  intro u
  rw [hcut]
  simp

/-- Witness for C6 at concrete https-like environments. -/
theorem cactus_helper_unavailable_blocks_witness :
    (cutReleaseBranch cutEnvC6).1 =
      Except.error "Using https remote but git credentials helper not available!" ∧
    Event.cloneRepoCall "https://host/repo.git" ∉ (cutReleaseBranch cutEnvC6).2 ∧
    pushPlans (cutReleaseBranch cutEnvC6).2 = [] ∧
    (tagVersion tagEnvC6).1 =
      Except.error "Using https remote but git credentials helper not available!" := by
  have h := cactus_helper_unavailable_blocks cutEnvC6 tagEnvC6
    (by decide) rfl (by decide) rfl
  exact ⟨h.1, h.2.1 "https://host/repo.git", h.2.2.1, h.2.2.2.1⟩

/-- Claim C7: the review gate is fail-closed: with no explicit confirmation
the decision defaults to false, and in both workflows a false decision yields
the normal aborted outcome string as an ordinary result (not a fault), with
no push performed. -/
theorem cactus_review_gate_fail_closed (env : CutEnv) (envT : TagEnv)
    (hans : env.answer = none ∨ env.answer = some false)
    (hcred : jsStartsWith env.upstreamUrl "git" = true ∨ env.helperAvailable = true)
    (hclone : env.cloneOk = true)
    (hver : (parseSemVer env.manifestVersion).isSome = true)
    (hansT : envT.answer = none ∨ envT.answer = some false)
    (hcredT : jsStartsWith envT.upstreamUrl "git" = true ∨ envT.helperAvailable = true)
    (hverT : (parseSemVer envT.manifestVersion).isSome = true) :
    inquirerConfirm false none = false ∧
    (cutReleaseBranch env).1 =
      Except.ok "Aborted branch cut! Phew, that was a close one..." ∧
    pushPlans (cutReleaseBranch env).2 = [] ∧
    (tagVersion envT).1 =
      Except.ok "Aborted push! Local changes not reverted, you must now do surgery!" ∧
    pushPlans (tagVersion envT).2 = [] := by
  obtain ⟨v, hv⟩ := Option.isSome_iff_exists.mp hver
  obtain ⟨w, hw⟩ := Option.isSome_iff_exists.mp hverT
  have hfc : inquirerConfirm false env.answer = false := by
    rcases hans with h | h <;> rw [h] <;> rfl
  have hfcT : inquirerConfirm false envT.answer = false := by
    rcases hansT with h | h <;> rw [h] <;> rfl
  refine ⟨rfl, ?_, ?_, ?_, ?_⟩
  · rcases getCreds_ok_cases ⟨env.upstreamUrl, env.helperAvailable, env.helperCreds⟩ hcred with
      hg | hg <;>
      rw [cutReleaseBranch_rejected env v _ _ hg hclone hv hfc]
  · rcases getCreds_ok_cases ⟨env.upstreamUrl, env.helperAvailable, env.helperCreds⟩ hcred with
      hg | hg <;>
      (rw [cutReleaseBranch_rejected env v _ _ hg hclone hv hfc]; simp [pushPlans])
  · rcases getCreds_ok_cases ⟨envT.upstreamUrl, envT.helperAvailable, envT.helperCreds⟩ hcredT with
      hg | hg <;>
      rw [tagVersion_rejected envT w _ _ hg hw hfcT]
  · rcases getCreds_ok_cases ⟨envT.upstreamUrl, envT.helperAvailable, envT.helperCreds⟩ hcredT with
      hg | hg <;>
      (rw [tagVersion_rejected envT w _ _ hg hw hfcT]; simp [pushPlans])

/-- Witness for C7: a cut run with no explicit confirmation and a tag run
with an explicit no both abort without pushing. -/
theorem cactus_review_gate_fail_closed_witness :
    (cutReleaseBranch cutEnvC7).1 =
      Except.ok "Aborted branch cut! Phew, that was a close one..." ∧
    pushPlans (cutReleaseBranch cutEnvC7).2 = [] ∧
    (tagVersion tagEnvC7).1 =
      Except.ok "Aborted push! Local changes not reverted, you must now do surgery!" ∧
    pushPlans (tagVersion tagEnvC7).2 = [] := by
  have h := cactus_review_gate_fail_closed cutEnvC7 tagEnvC7
    (Or.inl rfl) (Or.inl (by decide)) rfl (by decide)
    (Or.inr rfl) (Or.inr rfl) (by decide)
  exact ⟨h.2.1, h.2.2.1, h.2.2.2.1, h.2.2.2.2⟩

/-- Claim C8: the scratch clone directory is created on every run that gets
past credential resolution, but no execution path of the cut workflow ever
removes it: success, rejection and failure all exit without any cleanup of
the scratch directory, contradicting an unconditional exit-path removal. -/
theorem cactus_scratch_clone_never_removed (env : CutEnv) :
    Event.tmpdirRemove ∉ (cutReleaseBranch env).2 ∧
    (jsStartsWith env.upstreamUrl "git" = true ∨ env.helperAvailable = true →
      Event.tmpdirCreate ∈ (cutReleaseBranch env).2) := by
  constructor
  · intro hmem
    have hall := cutReleaseBranch_events env
    rw [List.all_eq_true] at hall
    have hfalse := hall _ hmem
    simp [allowedCutEvent] at hfalse
  · intro hcred
    rcases getCreds_ok_cases ⟨env.upstreamUrl, env.helperAvailable, env.helperCreds⟩ hcred with
      hg | hg <;>
      simp only [cutReleaseBranch, hg] <;>
      (repeat' split) <;>
      simp [approveDiff]

/-- Witness for C8 on the rejection path: the directory is created, never
removed, and the run still ends in the normal aborted outcome. -/
theorem cactus_scratch_clone_never_removed_witness :
    Event.tmpdirRemove ∉ (cutReleaseBranch cutEnvC7).2 ∧
    Event.tmpdirCreate ∈ (cutReleaseBranch cutEnvC7).2 :=
  ⟨(cactus_scratch_clone_never_removed cutEnvC7).1,
   (cactus_scratch_clone_never_removed cutEnvC7).2 (Or.inl (by decide))⟩

theorem cutReleaseBranch_pushfail (env : CutEnv) (v : SemVer)
    (creds : Option UserPass) (evsg : List Event)
    (hg : getCreds ⟨env.upstreamUrl, env.helperAvailable, env.helperCreds⟩ =
      (Except.ok creds, evsg))
    (hclone : env.cloneOk = true)
    (hver : parseSemVer env.manifestVersion = some v)
    (hans : inquirerConfirm false env.answer = true)
    (hpush : env.pushTransportOk = false) :
    (cutReleaseBranch env).1 = Except.error "push failed" ∧
    (cutReleaseBranch env).2 =
      evsg ++ [Event.tmpdirCreate, Event.cloneRepoCall env.upstreamUrl,
        Event.revwalkRange RepoHandle.localRepo ("v" ++ env.manifestVersion ++ ".." ++ "master"),
        Event.npmVersionRun ("npm version " ++ levelName env.level ++ " -m \"Release v%s\""),
        Event.pushCall RemoteHandle.cloneOrigin
          ["refs/heads/master:refs/heads/master",
           "refs/heads/master:refs/heads/" ++ releaseBranchNameOf (semverInc v env.level env.preid),
           "refs/tags/v" ++ renderSemVer (semverInc v env.level env.preid) ++ ":refs/tags/v" ++
             renderSemVer (semverInc v env.level env.preid)]
          (makeGitOpts creds)] := by
  constructor <;>
    simp [cutReleaseBranch, hg, hclone,
      generateNextVersion_eq env.manifestVersion v env.level env.preid hver, approveDiff,
      hans, hpush]

/-- Claim C9: the commit range reviewed by the cut workflow is enumerated on
the caller's local repository handle, never on the scratch clone's: the
source passes the locally opened repo to approveDiff, so enumeration over the
clone's repository (as claimed) does not happen. -/
theorem cactus_cut_reviews_local_history (env : CutEnv)
    (hcred : jsStartsWith env.upstreamUrl "git" = true ∨ env.helperAvailable = true)
    (hclone : env.cloneOk = true)
    (hver : (parseSemVer env.manifestVersion).isSome = true) :
    Event.revwalkRange RepoHandle.localRepo ("v" ++ env.manifestVersion ++ ".." ++ "master") ∈
      (cutReleaseBranch env).2 ∧
    (∀ r, Event.revwalkRange RepoHandle.cloneRepo r ∉ (cutReleaseBranch env).2) := by
  obtain ⟨v, hv⟩ := Option.isSome_iff_exists.mp hver
  constructor
  · by_cases hb : inquirerConfirm false env.answer = false
    · rcases getCreds_ok_cases ⟨env.upstreamUrl, env.helperAvailable, env.helperCreds⟩ hcred with
        hg | hg <;>
        (rw [cutReleaseBranch_rejected env v _ _ hg hclone hv hb]; simp)
    · have hb2 : inquirerConfirm false env.answer = true := by
        cases hq : inquirerConfirm false env.answer
        · exact absurd hq hb
        · rfl
      by_cases hp : env.pushTransportOk = true
      · rcases getCreds_ok_cases ⟨env.upstreamUrl, env.helperAvailable, env.helperCreds⟩ hcred with
          hg | hg <;>
          (rw [cutReleaseBranch_approved env v _ _ hg hclone hv hb2 hp]; simp)
      · have hp2 : env.pushTransportOk = false := by
          cases hq : env.pushTransportOk
          · rfl
          · exact absurd hq hp
        rcases getCreds_ok_cases ⟨env.upstreamUrl, env.helperAvailable, env.helperCreds⟩ hcred with
          hg | hg <;>
          (rw [(cutReleaseBranch_pushfail env v _ _ hg hclone hv hb2 hp2).2]; simp)
  · intro r hmem
    have hall := cutReleaseBranch_events env
    rw [List.all_eq_true] at hall
    have hfalse := hall _ hmem
    simp [allowedCutEvent] at hfalse

/-- Witness for C9 at a concrete environment: the walked range v2.4.0..master
is recorded against the local repository handle and never against the clone. -/
theorem cactus_cut_reviews_local_history_witness :
    Event.revwalkRange RepoHandle.localRepo "v2.4.0..master" ∈ (cutReleaseBranch cutEnvC7).2 ∧
    Event.revwalkRange RepoHandle.cloneRepo "v2.4.0..master" ∉ (cutReleaseBranch cutEnvC7).2 := by
  have h := cactus_cut_reviews_local_history cutEnvC7 (Or.inl (by decide)) rfl (by decide)
  have he : "v" ++ cutEnvC7.manifestVersion ++ ".." ++ "master" = "v2.4.0..master" := by decide
  exact ⟨he ▸ h.1, h.2 "v2.4.0..master"⟩

/-- Claim C10: protocol classification in getCreds is decided solely by
whether the URL string starts with git: every git-prefixed URL (git@...,
git://...) is treated as ssh-like and yields None, while every other URL,
including ssh://... ones, takes the https-like path, failing when the helper
is unavailable and filling credentials when it is available. -/
theorem cactus_protocol_split_on_git_string (c : CredEnv) :
    (jsStartsWith c.url "git" = true →
      getCreds c = (Except.ok none, [Event.gchAvailable c.helperAvailable])) ∧
    (jsStartsWith c.url "git" = false → c.helperAvailable = false →
      (getCreds c).1 =
        Except.error "Using https remote but git credentials helper not available!") ∧
    (jsStartsWith c.url "git" = false → c.helperAvailable = true →
      getCreds c = (Except.ok (some c.helperCreds),
        [Event.gchAvailable true, Event.gchFill c.url])) ∧
    jsStartsWith "git@host:repo.git" "git" = true ∧
    jsStartsWith "git://host/repo.git" "git" = true ∧
    jsStartsWith "ssh://git@host/repo.git" "git" = false := by
  refine ⟨?_, ?_, ?_, by decide, by decide, by decide⟩
  · intro h
    simp [getCreds, h]
  · intro h ha
    simp [getCreds, h, ha]
  · intro h ha
    simp [getCreds, h, ha]

/-- Witness for C10: an ssh protocol URL that does not start with git is
treated as https-like and fails when the helper is unavailable. -/
theorem cactus_protocol_split_on_git_string_witness :
    jsStartsWith credEnvC10.url "git" = false ∧
    (getCreds credEnvC10).1 =
      Except.error "Using https remote but git credentials helper not available!" :=
  ⟨by decide, (cactus_protocol_split_on_git_string credEnvC10).2.1 (by decide) rfl⟩

